import Mathlib

/-!
Shallow embedding of the `gu-map` library (`createGuMap` in `src/gu-map.js`,
`normalizeConfig` in `gu-map-config.js`).

A GuMap is a JavaScript `Map` wrapped in a `Proxy`.  Every property access on
the proxy funnels through `doGet` / `doSet` / `doDelete` / `doHas`, which
consult a frozen configuration (the policy) and the backing map.  We model:

* property keys reaching the traps (strings, the two reserved symbols, and
  other primitive values usable as `Map` keys) as `JSKey`;
* the backing `Map` as an insertion-ordered association list `MapState`;
* the configuration record as `Config`, produced by `normalizeConfig` from a
  JavaScript options record whose fields may hold arbitrary (truthy/falsy)
  values;
* thrown `Error`s as the `.error` branch of `Except String`, carrying the
  exact message string the source builds.
-/

set_option autoImplicit false

namespace GuMap

/-- A JavaScript value usable as an options-record field: we only need its
truthiness, so we model the primitive shapes `Boolean(x)` distinguishes. -/
inductive JSVal where
  | undefined
  | null
  | bool (b : Bool)
  | num (n : Int)
  | str (s : String)
  deriving DecidableEq, Repr

/-- `Boolean(x)` coercion from JavaScript. -/
def JSVal.toBool : JSVal → Bool
  | .undefined => false
  | .null => false
  | .bool b => b
  | .num n => decide (n ≠ 0)
  | .str s => decide (s ≠ "")

/-- The options record passed to `normalizeConfig` (the second argument of
`createGuMap`).  Each recognized field holds an arbitrary JavaScript value;
unrecognized extra fields are never read by the source, so they are omitted.
A missing field reads as `undefined`. -/
structure OptionsRec where
  immutableMap : JSVal := .undefined
  immutableProperties : JSVal := .undefined
  throwErrorOnPropertyMutate : JSVal := .undefined
  throwErrorOnNonexistentProperty : JSVal := .undefined
  deriving DecidableEq, Repr

/-- The normalized, frozen configuration produced by `normalizeConfig`. -/
structure Config where
  immutableMap : Bool
  immutableProperties : Bool
  throwErrorOnPropertyMutate : Bool
  throwErrorOnNonexistentProperty : Bool
  deriving DecidableEq, Repr

/-- `options?.field`: optional chaining on the options record — reading any
field of an absent record yields `undefined`. -/
def optField (options : Option OptionsRec) (f : OptionsRec → JSVal) : JSVal :=
  match options with
  | some o => f o
  | none => .undefined

/-- `normalizeConfig(options)` from `gu-map-config.js`: each flag is coerced
with `Boolean(...)`, `immutableProperties` is the OR with `immutableMap`, and
the result is frozen.  Construction is total: it never throws. -/
def normalizeConfig (options : Option OptionsRec) : Config :=
  let immutableMap := (optField options (·.immutableMap)).toBool
  { immutableMap := immutableMap
    immutableProperties :=
      immutableMap || (optField options (·.immutableProperties)).toBool
    throwErrorOnPropertyMutate :=
      (optField options (·.throwErrorOnPropertyMutate)).toBool
    throwErrorOnNonexistentProperty :=
      (optField options (·.throwErrorOnNonexistentProperty)).toBool }

/-- A key reaching the proxy traps or the bridged `set`/`get`/`delete`
methods: a string, one of the two reserved well-known symbols appearing in
`BRIDGE_KEYS`, or any other `Map`-storable value (numbers, objects, ...),
abstracted by an index. -/
inductive JSKey where
  | str (s : String)
  | symbolIterator
  | symbolToStringTag
  | other (n : Nat)
  deriving DecidableEq, Repr

/-- `String(key)`, as used by the error-message helpers. -/
def keyToString : JSKey → String
  | .str s => s
  | .symbolIterator => "Symbol(Symbol.iterator)"
  | .symbolToStringTag => "Symbol(Symbol.toStringTag)"
  | .other n => toString n

/-- `BRIDGE_KEYS` from `gu-map.js`: the reserved names that always resolve to
bridge members. -/
def BRIDGE_KEYS : List JSKey :=
  [.str "clear", .str "delete", .str "entries", .str "forEach", .str "get",
   .str "has", .str "keys", .str "set", .str "size", .str "values",
   .symbolIterator, .symbolToStringTag]

/-- `isBridgeKey(key)` from `gu-map.js`. -/
def isBridgeKey (key : JSKey) : Bool :=
  BRIDGE_KEYS.contains key

/-- The backing `Map`, as an insertion-ordered association list.  Reachable
states have pairwise-distinct keys (`KeysNodup`). -/
abbrev MapState (V : Type) : Type := List (JSKey × V)

/-- `map.get(key)` (ECMA-262 MapGet: the value of the first record whose key
matches): `none` models `undefined`. -/
def mapGet {V : Type} : MapState V → JSKey → Option V
  | [], _ => none
  | e :: rest, key => if e.1 = key then some e.2 else mapGet rest key

/-- `map.has(key)` (ECMA-262 MapHas: the key of some record matches). -/
def mapHas {V : Type} (m : MapState V) (key : JSKey) : Bool :=
  (mapGet m key).isSome

/-- `map.set(key, value)` (ECMA-262 MapSet: replace the value of the matching
record in place, keeping its position; append a new record otherwise). -/
def mapSet {V : Type} : MapState V → JSKey → V → MapState V
  | [], key, value => [(key, value)]
  | e :: rest, key, value =>
      if e.1 = key then (key, value) :: rest else e :: mapSet rest key value

/-- `map.delete(key)` (ECMA-262 MapDelete: remove the matching record); the
source also returns whether the key was present, modelled via `mapHas`. -/
def mapDelete {V : Type} : MapState V → JSKey → MapState V
  | [], _ => []
  | e :: rest, key => if e.1 = key then rest else e :: mapDelete rest key

/-- `map.clear()`. -/
def mapClear {V : Type} (_ : MapState V) : MapState V := []

/-- `map.size`. -/
def mapSize {V : Type} (m : MapState V) : Nat := m.length

/-- Reachable-state invariant: the stored keys are pairwise distinct. -/
def KeysNodup {V : Type} (m : MapState V) : Prop :=
  (m.map Prod.fst).Nodup

/-- The base message prefix from `createErrorHelpers` in `gu-map.js`. -/
def errBase : String := "GuMap Error:"

/-- `errors.immutable()`. -/
def errImmutable (config : Config) : String :=
  if config.immutableMap then " Map is immutable." else " Properties are immutable."

/-- `errors.prop(verb, key)` with the key already stringified. -/
def errPropStr (verb key : String) : String :=
  " Cannot " ++ verb ++ " property " ++ key ++ "."

/-- `errors.prop(verb, key)`. -/
def errProp (verb : String) (key : JSKey) : String :=
  errPropStr verb (keyToString key)

/-- `errors.nonexistent(key)` with the key already stringified. -/
def errNonexistentStr (key : String) : String :=
  " Property " ++ key ++ " does not exist."

/-- `errors.nonexistent(key)`. -/
def errNonexistent (key : JSKey) : String :=
  errNonexistentStr (keyToString key)

/-- The message of the missing-key error family (`errors.base` followed by
`errors.nonexistent(key)` and `errors.prop(op, key)`), as a function of the
operation verb and the stringified key. -/
def missingMsgStr (op key : String) : String :=
  errBase ++ errNonexistentStr key ++ errPropStr op key

/-- What `doGet` hands back when it does not throw: a bridge member (the
operation or accessor stored under a reserved name), a stored value, or
`undefined`. -/
inductive GetResult (V : Type) where
  | bridge (key : JSKey)
  | stored (v : V)
  | undefined
  deriving DecidableEq, Repr

/-- `doGet` from `createOperations` in `gu-map.js`. -/
def doGet {V : Type} (config : Config) (m : MapState V) (key : JSKey) :
    Except String (GetResult V) :=
  if isBridgeKey key then
    .ok (.bridge key)
  else if !(mapHas m key) && config.throwErrorOnNonexistentProperty then
    .error (errBase ++ errNonexistent key ++ errProp "get" key)
  else
    match mapGet m key with
    | some v => .ok (.stored v)
    | none => .ok .undefined

/-- `doSet` from `createOperations` in `gu-map.js`.  `.ok (true, m')` models
an applied write, `.ok (false, m)` the not-applied signal `return false`. -/
def doSet {V : Type} (config : Config) (m : MapState V) (key : JSKey) (value : V) :
    Except String (Bool × MapState V) :=
  if isBridgeKey key then
    if config.throwErrorOnPropertyMutate then
      .error (errBase ++ errImmutable config ++ errProp "set" key)
    else
      .ok (false, m)
  else if config.immutableMap || (config.immutableProperties && mapHas m key) then
    if config.throwErrorOnPropertyMutate then
      .error (errBase ++ errImmutable config ++ errProp "set" key)
    else
      .ok (false, m)
  else
    .ok (true, mapSet m key value)

/-- `doDelete` from `createOperations` in `gu-map.js`. -/
def doDelete {V : Type} (config : Config) (m : MapState V) (key : JSKey) :
    Except String (Bool × MapState V) :=
  if config.immutableMap || config.immutableProperties then
    if config.throwErrorOnPropertyMutate then
      .error (errBase ++ errImmutable config ++ errProp "delete" key)
    else
      .ok (false, m)
  else if !(mapHas m key) && config.throwErrorOnNonexistentProperty then
    .error (errBase ++ errNonexistent key ++ errProp "delete" key)
  else
    .ok (mapHas m key, mapDelete m key)

/-- `doHas` from `createOperations` in `gu-map.js`. -/
def doHas {V : Type} (m : MapState V) (key : JSKey) : Bool :=
  isBridgeKey key || mapHas m key

/-- The container after a `doSet` call: unchanged when the call threw (the
source throws before touching the map). -/
def afterSet {V : Type} (config : Config) (m : MapState V) (key : JSKey) (value : V) :
    MapState V :=
  match doSet config m key value with
  | .ok (_, m') => m'
  | .error _ => m

/-- The container after a `doDelete` call: unchanged when the call threw. -/
def afterDelete {V : Type} (config : Config) (m : MapState V) (key : JSKey) :
    MapState V :=
  match doDelete config m key with
  | .ok (_, m') => m'
  | .error _ => m

/-- Calling `facade.clear()`: the `get` trap runs `doGet` on `"clear"`, which
resolves to the bridge member `clear: () => map.clear()`; invoking it clears
the backing map directly. -/
def facadeClear {V : Type} (config : Config) (m : MapState V) :
    Except String (MapState V) :=
  match doGet config m (.str "clear") with
  | .error e => .error e
  | .ok _ => .ok (mapClear m)

/-- Whether a key survives the filter of the `ownKeys` trap, which keeps `k`
exactly when `typeof k` is the string type or the symbol type. -/
def isStringOrSymbolKey : JSKey → Bool
  | .str _ => true
  | .symbolIterator => true
  | .symbolToStringTag => true
  | .other _ => false

/-- The `ownKeys` proxy trap from `createGuMap`: it spreads `map.keys()` and
`BRIDGE_KEYS` into one array and filters it by `isStringOrSymbolKey`. -/
def ownKeys {V : Type} (m : MapState V) : List JSKey :=
  (m.map Prod.fst ++ BRIDGE_KEYS).filter isStringOrSymbolKey

/-- The ten method/accessor names the spec lists as bridge names. -/
def bridgeNameStrings : List String :=
  ["get", "set", "has", "delete", "entries", "keys", "values", "clear",
   "forEach", "size"]

/-- Run a sequence of `write` calls through `doSet`, requiring every call to
be accepted (applied without rejection): `none` when some call throws or
reports not-applied. -/
def applyWrites {V : Type} (config : Config) :
    MapState V → List (JSKey × V) → Option (MapState V)
  | m, [] => some m
  | m, (key, value) :: rest =>
      match doSet config m key value with
      | .ok (true, m') => applyWrites config m' rest
      | _ => none

/-- The last value written for a key in a sequence of writes. -/
def lastWritten {V : Type} : List (JSKey × V) → JSKey → Option V
  | [], _ => none
  | (k, v) :: rest, key =>
      match lastWritten rest key with
      | some w => some w
      | none => if k = key then some v else none

/-! Basic lemmas about the backing-map primitives. -/

theorem mapHas_cons {V : Type} (e : JSKey × V) (rest : MapState V) (key : JSKey) :
    mapHas (e :: rest) key = (if e.1 = key then true else mapHas rest key) := by
  by_cases h : e.1 = key <;> simp [mapHas, mapGet, h]

theorem mapHas_iff_mem {V : Type} (m : MapState V) (key : JSKey) :
    mapHas m key = true ↔ key ∈ m.map Prod.fst := by
  induction m with
  | nil => simp [mapHas, mapGet]
  | cons e rest ih =>
      rw [mapHas_cons]
      by_cases h : e.1 = key
      · simp [h]
      · have h' : ¬key = e.1 := fun hh => h hh.symm
        simp [h, h', ih]

theorem mapGet_isSome_of_has {V : Type} (m : MapState V) (key : JSKey)
    (h : mapHas m key = true) : ∃ v, mapGet m key = some v := by
  have := h
  unfold mapHas at this
  exact Option.isSome_iff_exists.mp this

theorem mapGet_mapSet {V : Type} (m : MapState V) (key j : JSKey) (value : V) :
    mapGet (mapSet m key value) j = if j = key then some value else mapGet m j := by
  induction m with
  | nil =>
      by_cases h : j = key
      · simp [mapSet, mapGet, h]
      · have h' : ¬key = j := fun hh => h hh.symm
        simp [mapSet, mapGet, h, h']
  | cons e rest ih =>
      by_cases he : e.1 = key
      · by_cases hj : j = key
        · simp [mapSet, mapGet, he, hj]
        · have h1 : ¬key = j := fun hh => hj hh.symm
          have h2 : ¬e.1 = j := fun hh => hj (hh.symm.trans he)
          simp [mapSet, mapGet, he, hj, h1, h2]
      · by_cases hj : e.1 = j
        · have h1 : ¬j = key := fun hh => he (hj.trans hh)
          simp [mapSet, mapGet, he, hj, h1]
        · simp [mapSet, mapGet, he, hj, ih]

theorem mapHas_mapSet {V : Type} (m : MapState V) (key j : JSKey) (value : V) :
    mapHas (mapSet m key value) j = (if j = key then true else mapHas m j) := by
  by_cases h : j = key <;> simp [mapHas, mapGet_mapSet, h]

theorem keys_mapSet {V : Type} (m : MapState V) (key : JSKey) (value : V) :
    (mapSet m key value).map Prod.fst =
      if mapHas m key then m.map Prod.fst else m.map Prod.fst ++ [key] := by
  induction m with
  | nil => simp [mapSet, mapHas, mapGet]
  | cons e rest ih =>
      by_cases h : e.1 = key
      · simp [mapSet, mapHas_cons, h]
      · simp only [mapSet, if_neg h, List.map_cons, mapHas_cons, h, if_false, ih]
        by_cases hr : mapHas rest key <;> simp [hr]

theorem mapSize_mapSet {V : Type} (m : MapState V) (key : JSKey) (value : V) :
    mapSize (mapSet m key value) =
      if mapHas m key then mapSize m else mapSize m + 1 := by
  have h1 : mapSize (mapSet m key value) = ((mapSet m key value).map Prod.fst).length := by
    simp [mapSize]
  have h2 : mapSize m = (m.map Prod.fst).length := by simp [mapSize]
  rw [h1, h2, keys_mapSet]
  by_cases h : mapHas m key <;> simp [h]

theorem keysNodup_mapSet {V : Type} (m : MapState V) (key : JSKey) (value : V)
    (h : KeysNodup m) : KeysNodup (mapSet m key value) := by
  unfold KeysNodup at *
  rw [keys_mapSet]
  by_cases hk : mapHas m key
  · simpa [hk] using h
  · have : key ∉ m.map Prod.fst := fun hmem =>
      by simp [(mapHas_iff_mem m key).mpr hmem] at hk
    simp [hk, List.nodup_append, h, this]

theorem mapDelete_of_not_has {V : Type} (m : MapState V) (key : JSKey)
    (h : mapHas m key = false) : mapDelete m key = m := by
  induction m with
  | nil => rfl
  | cons e rest ih =>
      by_cases he : e.1 = key
      · simp [mapHas_cons, he] at h
      · rw [mapHas_cons, if_neg he] at h
        simp [mapDelete, he, ih h]

/-! Lemmas about accepted write sequences. -/

theorem doSet_accepted {V : Type} (config : Config) (m : MapState V) (key : JSKey)
    (value : V) (m' : MapState V) (h : doSet config m key value = .ok (true, m')) :
    isBridgeKey key = false ∧ m' = mapSet m key value := by
  unfold doSet at h
  by_cases hb : isBridgeKey key
  · by_cases ht : config.throwErrorOnPropertyMutate <;> simp [hb, ht] at h
  · by_cases hi : (config.immutableMap || (config.immutableProperties && mapHas m key)) = true
    · by_cases ht : config.throwErrorOnPropertyMutate <;> simp [hb, hi, ht] at h
    · rw [Bool.not_eq_true] at hi
      simp [hb, hi] at h
      exact ⟨by simpa using hb, h.symm⟩

theorem lastWritten_isSome_iff {V : Type} (ws : List (JSKey × V)) (key : JSKey) :
    (lastWritten ws key).isSome = true ↔ key ∈ ws.map Prod.fst := by
  induction ws with
  | nil => simp [lastWritten]
  | cons e rest ih =>
      obtain ⟨k, v⟩ := e
      cases hlast : lastWritten rest key with
      | some w =>
          have : key ∈ rest.map Prod.fst := ih.mp (by simp [hlast])
          simp [lastWritten, hlast, this]
      | none =>
          have hrest : key ∉ rest.map Prod.fst := fun hmem => by
            have := ih.mpr hmem
            simp [hlast] at this
          by_cases hk : k = key
          · simp [lastWritten, hlast, hk, hrest]
          · have hk' : ¬key = k := fun hh => hk hh.symm
            simp [lastWritten, hlast, hk, hk', hrest]

theorem applyWrites_get {V : Type} (config : Config) (ws : List (JSKey × V)) :
    ∀ m mf : MapState V, applyWrites config m ws = some mf → ∀ key : JSKey,
      mapGet mf key =
        match lastWritten ws key with
        | some v => some v
        | none => mapGet m key := by
  induction ws with
  | nil =>
      intro m mf h key
      simp [applyWrites] at h
      subst h
      simp [lastWritten]
  | cons e rest ih =>
      intro m mf h key
      obtain ⟨k, v⟩ := e
      unfold applyWrites at h
      cases hset : doSet config m k v with
      | error err => rw [hset] at h; simp at h
      | ok p =>
          obtain ⟨applied, m'⟩ := p
          rw [hset] at h
          cases applied with
          | false => simp at h
          | true =>
              simp only at h
              have hm' := (doSet_accepted config m k v m' hset).2
              subst hm'
              rw [ih _ _ h key]
              cases hlast : lastWritten rest key with
              | some w => simp [lastWritten, hlast]
              | none =>
                  by_cases hk : k = key
                  · simp [lastWritten, hlast, hk, mapGet_mapSet]
                  · have hk' : ¬key = k := fun hh => hk hh.symm
                    simp [lastWritten, hlast, hk, hk', mapGet_mapSet]

theorem applyWrites_has {V : Type} (config : Config) (ws : List (JSKey × V))
    (m mf : MapState V) (h : applyWrites config m ws = some mf) (key : JSKey) :
    mapHas mf key = true ↔ (mapHas m key = true ∨ key ∈ ws.map Prod.fst) := by
  have hg := applyWrites_get config ws m mf h key
  cases hlast : lastWritten ws key with
  | some w =>
      rw [hlast] at hg
      have hmem : key ∈ ws.map Prod.fst :=
        (lastWritten_isSome_iff ws key).mp (by simp [hlast])
      simp [mapHas, hg, hmem]
  | none =>
      rw [hlast] at hg
      have hmem : key ∉ ws.map Prod.fst := fun hm => by
        have := (lastWritten_isSome_iff ws key).mpr hm
        simp [hlast] at this
      simp [mapHas, hg, hmem]

theorem applyWrites_nodup {V : Type} (config : Config) (ws : List (JSKey × V)) :
    ∀ m mf : MapState V, applyWrites config m ws = some mf → KeysNodup m →
      KeysNodup mf := by
  induction ws with
  | nil =>
      intro m mf h hn
      simp [applyWrites] at h
      subst h
      exact hn
  | cons e rest ih =>
      intro m mf h hn
      obtain ⟨k, v⟩ := e
      unfold applyWrites at h
      cases hset : doSet config m k v with
      | error err => rw [hset] at h; simp at h
      | ok p =>
          obtain ⟨applied, m'⟩ := p
          rw [hset] at h
          cases applied with
          | false => simp at h
          | true =>
              simp only at h
              have hm' := (doSet_accepted config m k v m' hset).2
              subst hm'
              exact ih _ _ h (keysNodup_mapSet m k v hn)

theorem applyWrites_not_bridge {V : Type} (config : Config) (ws : List (JSKey × V)) :
    ∀ m mf : MapState V, applyWrites config m ws = some mf →
      ∀ key ∈ ws.map Prod.fst, isBridgeKey key = false := by
  induction ws with
  | nil => intro m mf _ key hmem; simp at hmem
  | cons e rest ih =>
      intro m mf h key hmem
      obtain ⟨k, v⟩ := e
      unfold applyWrites at h
      cases hset : doSet config m k v with
      | error err => rw [hset] at h; simp at h
      | ok p =>
          obtain ⟨applied, m'⟩ := p
          rw [hset] at h
          cases applied with
          | false => simp at h
          | true =>
              simp only at h
              rw [List.map_cons] at hmem
              rcases List.mem_cons.mp hmem with hk | hk
              · subst hk
                exact (doSet_accepted _ _ _ _ _ hset).1
              · exact ih _ _ h key hk

theorem applyWrites_size {V : Type} (config : Config) (ws : List (JSKey × V))
    (mf : MapState V) (h : applyWrites config [] ws = some mf) :
    mapSize mf = (ws.map Prod.fst).dedup.length := by
  have hnodup : KeysNodup mf :=
    applyWrites_nodup config ws [] mf h (by simp [KeysNodup])
  have hmem : ∀ key, key ∈ mf.map Prod.fst ↔ key ∈ ws.map Prod.fst := by
    intro key
    rw [← mapHas_iff_mem]
    have := applyWrites_has config ws [] mf h key
    simpa [mapHas, mapGet] using this
  have hfin : (mf.map Prod.fst).toFinset = (ws.map Prod.fst).toFinset := by
    ext a
    simp [List.mem_toFinset, hmem]
  calc mapSize mf = (mf.map Prod.fst).length := by simp [mapSize]
    _ = (mf.map Prod.fst).dedup.length := by rw [List.Nodup.dedup hnodup]
    _ = (mf.map Prod.fst).toFinset.card := (List.card_toFinset _).symm
    _ = (ws.map Prod.fst).toFinset.card := by rw [hfin]
    _ = (ws.map Prod.fst).dedup.length := List.card_toFinset _

/-! The missing-key error message determines the operation and the key. -/

theorem missingMsgStr_key_inj (op k1 k2 : String) (hk : k1.length = k2.length)
    (heq : missingMsgStr op k1 = missingMsgStr op k2) : k1 = k2 := by
  have hdata := congrArg String.data heq
  simp only [missingMsgStr, errBase, errNonexistentStr, errPropStr,
    String.data_append, List.append_assoc] at hdata
  have h1 := List.append_cancel_left hdata
  have h2 := List.append_cancel_left h1
  have hkd : k1.data.length = k2.data.length := hk
  have hke : k1.data = k2.data := (List.append_inj h2 hkd).1
  obtain ⟨d1⟩ := k1
  obtain ⟨d2⟩ := k2
  simp only [] at hke
  exact congrArg String.mk hke

theorem missingMsgStr_op_key_inj (op1 op2 k1 k2 : String)
    (ho1 : op1 = "get" ∨ op1 = "delete") (ho2 : op2 = "get" ∨ op2 = "delete")
    (heq : missingMsgStr op1 k1 = missingMsgStr op2 k2) :
    op1 = op2 ∧ k1 = k2 := by
  have hlen := congrArg String.length heq
  simp only [missingMsgStr, errBase, errNonexistentStr, errPropStr,
    String.length_append] at hlen
  have hg : ("get" : String).length = 3 := rfl
  have hd : ("delete" : String).length = 6 := rfl
  rcases ho1 with h1 | h1 <;> rcases ho2 with h2 | h2 <;> subst h1 <;> subst h2
  · exact ⟨rfl, missingMsgStr_key_inj _ _ _ (by omega) heq⟩
  · exact absurd hlen (by omega)
  · exact absurd hlen (by omega)
  · exact ⟨rfl, missingMsgStr_key_inj _ _ _ (by omega) heq⟩

/-! Claim theorems. -/

/-- C1: the claim states that `clear()` on the facade is rejected by the same
rule as `remove` (raising when `errorOnMutationBlocked` is set, leaving the
container unchanged).  The bridge member `clear: () => map.clear()` in the code
bypasses the policy entirely: under a fully-immutable, error-raising policy,
calling `clear()` through the facade raises no error and empties a one-entry
container. -/
theorem clear_bypasses_policy :
    facadeClear (⟨true, true, true, true⟩ : Config) [(JSKey.str "a", (1 : Nat))] =
      .ok ([] : MapState Nat) ∧
    mapSize [(JSKey.str "a", (1 : Nat))] = 1 ∧
    mapSize ([] : MapState Nat) = 0 :=
  ⟨rfl, rfl, rfl⟩

/-- C2: under any policy with `fullyImmutable = true` (`immutableMap`),
`write` (`doSet`) and `remove` (`doDelete`) leave the container unchanged for
every key, value and container state, whether they throw or report
not-applied. -/
theorem fullyImmutable_frame {V : Type} (config : Config) (m : MapState V)
    (key : JSKey) (value : V) (h : config.immutableMap = true) :
    afterSet config m key value = m ∧ afterDelete config m key = m := by
  constructor
  · by_cases hb : isBridgeKey key <;>
      by_cases ht : config.throwErrorOnPropertyMutate <;>
        simp [afterSet, doSet, hb, ht, h]
  · by_cases ht : config.throwErrorOnPropertyMutate <;>
      simp [afterDelete, doDelete, ht, h]

theorem fullyImmutable_frame_witness :
    afterSet (⟨true, true, false, false⟩ : Config) [(JSKey.str "a", (1 : Nat))]
        (.str "b") 2 = [(JSKey.str "a", (1 : Nat))] ∧
    afterDelete (⟨true, true, false, false⟩ : Config) [(JSKey.str "a", (1 : Nat))]
        (.str "a") = [(JSKey.str "a", (1 : Nat))] :=
  fullyImmutable_frame _ _ _ _ rfl

/-- C3 counterexample: with `propertiesImmutable = true`, `fullyImmutable =
false`, the key `"get"` is absent from the empty container, yet
`write("get", 1)` is reported not-applied (bridge names are always rejected),
so it does not succeed and the size does not grow. -/
theorem write_absent_bridge_name_not_applied :
    mapHas ([] : MapState Nat) (.str "get") = false ∧
    doSet (⟨false, true, false, false⟩ : Config) ([] : MapState Nat)
        (.str "get") 1 = .ok (false, []) :=
  ⟨rfl, rfl⟩

/-- C3 (amended): under `propertiesImmutable = true`, `fullyImmutable =
false`, a `write` on an absent key that is not a bridge name succeeds and
increases the size by exactly 1, and a `write` on a present key leaves the
container — in particular the stored value of that key — unchanged. -/
theorem propertiesImmutable_write {V : Type} (config : Config) (m : MapState V)
    (key : JSKey) (value : V) (hp : config.immutableProperties = true)
    (hf : config.immutableMap = false) :
    (isBridgeKey key = false → mapHas m key = false →
        doSet config m key value = .ok (true, mapSet m key value) ∧
        mapSize (mapSet m key value) = mapSize m + 1) ∧
    (mapHas m key = true →
        afterSet config m key value = m ∧
        mapGet (afterSet config m key value) key = mapGet m key) := by
  constructor
  · intro hb habs
    refine ⟨by simp [doSet, hb, habs, hf], ?_⟩
    simp [mapSize_mapSet, habs]
  · intro hhas
    have hafter : afterSet config m key value = m := by
      by_cases hb : isBridgeKey key <;>
        by_cases ht : config.throwErrorOnPropertyMutate <;>
          simp [afterSet, doSet, hb, ht, hf, hp, hhas]
    exact ⟨hafter, by rw [hafter]⟩

theorem propertiesImmutable_write_witness :
    doSet (⟨false, true, false, false⟩ : Config) ([] : MapState Nat)
        (.str "x") 1 = .ok (true, mapSet [] (.str "x") 1) ∧
    afterSet (⟨false, true, false, false⟩ : Config) [(JSKey.str "y", (5 : Nat))]
        (.str "y") 7 = [(JSKey.str "y", (5 : Nat))] :=
  ⟨((propertiesImmutable_write (⟨false, true, false, false⟩ : Config)
      ([] : MapState Nat) (.str "x") 1 rfl rfl).1 rfl rfl).1,
   ((propertiesImmutable_write (⟨false, true, false, false⟩ : Config)
      [(JSKey.str "y", (5 : Nat))] (.str "y") 7 rfl rfl).2 rfl).1⟩

/-- C4: writing any of the ten spec-listed bridge names never touches the
container: `doSet` raises the mutation-blocked error when
`errorOnMutationBlocked` (`throwErrorOnPropertyMutate`) is set and otherwise
returns the not-applied signal with the container unchanged, under every
policy and container state. -/
theorem bridge_write_rejected {V : Type} (config : Config) (m : MapState V)
    (name : String) (value : V) (hname : name ∈ bridgeNameStrings) :
    (config.throwErrorOnPropertyMutate = true →
        doSet config m (.str name) value =
          .error (errBase ++ errImmutable config ++ errProp "set" (.str name))) ∧
    (config.throwErrorOnPropertyMutate = false →
        doSet config m (.str name) value = .ok (false, m)) := by
  have hb : isBridgeKey (.str name) = true := by
    fin_cases hname <;> rfl
  constructor <;> intro ht <;> simp [doSet, hb, ht]

theorem bridge_write_rejected_witness :
    doSet (⟨false, false, false, false⟩ : Config) ([] : MapState Nat)
        (.str "size") 1 = .ok (false, []) ∧
    doSet (⟨false, false, true, false⟩ : Config) ([] : MapState Nat)
        (.str "size") 1 =
      .error (errBase ++ errImmutable ⟨false, false, true, false⟩ ++
        errProp "set" (.str "size")) :=
  ⟨(bridge_write_rejected _ _ _ _ (by decide)).2 rfl,
   (bridge_write_rejected _ _ _ _ (by decide)).1 rfl⟩

/-- C5: `read` (`doGet`) returns the bridge member whenever the key is a
bridge name (regardless of container contents); otherwise it raises
`MissingKeyError` exactly when the key is absent and `errorOnMissingKey`
(`throwErrorOnNonexistentProperty`) is set, returns the stored value when
present, and returns `undefined` when absent without the flag. -/
theorem read_cases {V : Type} (config : Config) (m : MapState V) (key : JSKey) :
    (isBridgeKey key = true → doGet config m key = .ok (.bridge key)) ∧
    (isBridgeKey key = false → mapHas m key = false →
        config.throwErrorOnNonexistentProperty = true →
        doGet config m key = .error (missingMsgStr "get" (keyToString key))) ∧
    (isBridgeKey key = false → ∀ v, mapGet m key = some v →
        doGet config m key = .ok (.stored v)) ∧
    (isBridgeKey key = false → mapHas m key = false →
        config.throwErrorOnNonexistentProperty = false →
        doGet config m key = .ok .undefined) := by
  refine ⟨?_, ?_, ?_, ?_⟩
  · intro hb
    simp [doGet, hb]
  · intro hb habs hth
    simp [doGet, hb, habs, hth, missingMsgStr, errNonexistent, errProp]
  · intro hb v hv
    have hhas : mapHas m key = true := by simp [mapHas, hv]
    simp [doGet, hb, hhas, hv]
  · intro hb habs hth
    have hnone : mapGet m key = none := by
      cases hg : mapGet m key with
      | none => rfl
      | some w => simp [mapHas, hg] at habs
    simp [doGet, hb, habs, hth, hnone]

theorem read_cases_witness :
    doGet (⟨false, false, false, false⟩ : Config) ([] : MapState Nat)
        (.str "get") = .ok (.bridge (.str "get")) ∧
    doGet (⟨false, false, false, true⟩ : Config) ([] : MapState Nat)
        (.str "ghost") = .error (missingMsgStr "get" "ghost") ∧
    doGet (⟨false, false, false, true⟩ : Config) [(JSKey.str "a", (1 : Nat))]
        (.str "a") = .ok (.stored 1) ∧
    doGet (⟨false, false, false, false⟩ : Config) ([] : MapState Nat)
        (.str "ghost") = .ok .undefined :=
  ⟨(read_cases (⟨false, false, false, false⟩ : Config) ([] : MapState Nat)
      (.str "get")).1 rfl,
   (read_cases (⟨false, false, false, true⟩ : Config) ([] : MapState Nat)
      (.str "ghost")).2.1 rfl rfl rfl,
   (read_cases (⟨false, false, false, true⟩ : Config)
      [(JSKey.str "a", (1 : Nat))] (.str "a")).2.2.1 rfl 1 rfl,
   (read_cases (⟨false, false, false, false⟩ : Config) ([] : MapState Nat)
      (.str "ghost")).2.2.2 rfl rfl rfl⟩

/-- C6: for any sequence of writes from the empty container in which every
call is accepted (`applyWrites` succeeds), reading any written key yields the
last value written for it, and the size equals the number of distinct written
keys. -/
theorem writes_roundtrip {V : Type} (config : Config) (ws : List (JSKey × V))
    (mf : MapState V) (h : applyWrites config [] ws = some mf) :
    (∀ key v, lastWritten ws key = some v →
        doGet config mf key = .ok (.stored v)) ∧
    mapSize mf = (ws.map Prod.fst).dedup.length := by
  constructor
  · intro key v hlast
    have hmem : key ∈ ws.map Prod.fst :=
      (lastWritten_isSome_iff ws key).mp (by simp [hlast])
    have hb : isBridgeKey key = false :=
      applyWrites_not_bridge config ws [] mf h key hmem
    have hget : mapGet mf key = some v := by
      have hh := applyWrites_get config ws [] mf h key
      rw [hlast] at hh
      exact hh
    have hhas : mapHas mf key = true := by simp [mapHas, hget]
    simp [doGet, hb, hhas, hget]
  · exact applyWrites_size config ws mf h

theorem writes_roundtrip_witness :
    applyWrites (⟨false, false, false, false⟩ : Config) ([] : MapState Nat)
        [(JSKey.str "a", 1), (JSKey.str "b", 2), (JSKey.str "a", 3)] =
      some [(JSKey.str "a", 3), (JSKey.str "b", 2)] ∧
    doGet (⟨false, false, false, false⟩ : Config)
        [(JSKey.str "a", (3 : Nat)), (JSKey.str "b", 2)] (.str "a") =
      .ok (.stored 3) ∧
    mapSize [(JSKey.str "a", (3 : Nat)), (JSKey.str "b", 2)] =
      (([(JSKey.str "a", (1 : Nat)), (JSKey.str "b", 2),
          (JSKey.str "a", 3)]).map Prod.fst).dedup.length :=
  ⟨rfl,
   (writes_roundtrip (⟨false, false, false, false⟩ : Config)
      [(JSKey.str "a", (1 : Nat)), (JSKey.str "b", 2), (JSKey.str "a", 3)]
      [(JSKey.str "a", 3), (JSKey.str "b", 2)] rfl).1 (.str "a") 3 rfl,
   (writes_roundtrip (⟨false, false, false, false⟩ : Config)
      [(JSKey.str "a", (1 : Nat)), (JSKey.str "b", 2), (JSKey.str "a", 3)]
      [(JSKey.str "a", 3), (JSKey.str "b", 2)] rfl).2⟩

/-- C7: policy construction (`normalizeConfig`) is a total function on
arbitrary (possibly absent or non-boolean) options records — it never throws,
every flag is a boolean by construction — and whenever the normalized
`immutableMap` (`fullyImmutable`) is true, `immutableProperties`
(`propertiesImmutable`) is forced true. -/
theorem normalizeConfig_invariant (options : Option OptionsRec)
    (h : (normalizeConfig options).immutableMap = true) :
    (normalizeConfig options).immutableProperties = true := by
  unfold normalizeConfig at h ⊢
  simp only at h ⊢
  simp [h]

theorem normalizeConfig_invariant_witness :
    (normalizeConfig (some { immutableMap := .num 7 })).immutableProperties =
      true :=
  normalizeConfig_invariant _ rfl

/-- C8 counterexample: a container holding a number-typed key (here the
non-string key `other 0`) stores that key, yet the string-or-symbol filter
of the `ownKeys` trap drops it, so the result is not the full union of
container keys and bridge names. -/
theorem ownKeys_drops_nonstring_key :
    mapHas [(JSKey.other 0, (0 : Nat))] (.other 0) = true ∧
    JSKey.other 0 ∉ ownKeys [(JSKey.other 0, (0 : Nat))] := by
  refine ⟨rfl, ?_⟩
  decide

/-- C8 (amended): `ownKeys` returns exactly the union of the string- or
symbol-typed keys currently stored in the container and the fixed bridge
names. -/
theorem ownKeys_union {V : Type} (m : MapState V) (key : JSKey) :
    key ∈ ownKeys m ↔
      ((key ∈ m.map Prod.fst ∧ isStringOrSymbolKey key = true) ∨
        key ∈ BRIDGE_KEYS) := by
  have hbridge : ∀ b ∈ BRIDGE_KEYS, isStringOrSymbolKey b = true := by decide
  simp only [ownKeys, List.mem_filter, List.mem_append]
  constructor
  · rintro ⟨hk | hk, hp⟩
    · exact .inl ⟨hk, hp⟩
    · exact .inr hk
  · rintro (⟨hk, hp⟩ | hk)
    · exact ⟨.inl hk, hp⟩
    · exact ⟨.inr hk, hbridge key hk⟩

/-- C9: the `MissingKeyError`s raised by `read` (`doGet`) and `remove`
(`doDelete`) carry the message `missingMsgStr op (String(key))` with the
operation verb `"get"` resp. `"delete"`, and that message determines both the
operation and the stringified key (over the two verbs, `missingMsgStr` is
injective).  Each missing-key throw site is covered under exactly the
conditions that make it fire: `doGet` raises it for any non-bridge absent key
under any policy with `errorOnMissingKey` set (the immutability flags play no
role in that branch), while the missing-key branch of `doDelete` is reachable
precisely when neither immutability flag is set (otherwise `doDelete` raises
the mutation-blocked error instead, a different family, for any key). -/
theorem missingKey_error_messages {V : Type} (config : Config) (m : MapState V)
    (key : JSKey) (op1 op2 k1 k2 : String)
    (habs : mapHas m key = false)
    (hth : config.throwErrorOnNonexistentProperty = true)
    (ho1 : op1 = "get" ∨ op1 = "delete") (ho2 : op2 = "get" ∨ op2 = "delete")
    (heq : missingMsgStr op1 k1 = missingMsgStr op2 k2) :
    (isBridgeKey key = false →
        doGet config m key = .error (missingMsgStr "get" (keyToString key))) ∧
    (config.immutableMap = false → config.immutableProperties = false →
        doDelete config m key = .error (missingMsgStr "delete" (keyToString key))) ∧
    op1 = op2 ∧ k1 = k2 := by
  refine ⟨?_, ?_, missingMsgStr_op_key_inj op1 op2 k1 k2 ho1 ho2 heq⟩
  · intro hb
    simp [doGet, hb, habs, hth, missingMsgStr, errNonexistent, errProp]
  · intro him hip
    simp [doDelete, him, hip, habs, hth, missingMsgStr, errNonexistent, errProp]

theorem missingKey_error_messages_witness :
    doGet (⟨false, false, false, true⟩ : Config) ([] : MapState Nat)
        (.str "x") = .error (missingMsgStr "get" "x") ∧
    doGet (⟨true, true, true, true⟩ : Config) ([] : MapState Nat)
        (.str "x") = .error (missingMsgStr "get" "x") ∧
    doDelete (⟨false, false, false, true⟩ : Config) ([] : MapState Nat)
        (.str "x") = .error (missingMsgStr "delete" "x") ∧
    ("get" : String) = "get" ∧ ("x" : String) = "x" :=
  ⟨(missingKey_error_messages (⟨false, false, false, true⟩ : Config)
      ([] : MapState Nat) (.str "x") "get" "get" "x" "x"
      rfl rfl (Or.inl rfl) (Or.inl rfl) rfl).1 rfl,
   (missingKey_error_messages (⟨true, true, true, true⟩ : Config)
      ([] : MapState Nat) (.str "x") "get" "get" "x" "x"
      rfl rfl (Or.inl rfl) (Or.inl rfl) rfl).1 rfl,
   (missingKey_error_messages (⟨false, false, false, true⟩ : Config)
      ([] : MapState Nat) (.str "x") "get" "get" "x" "x"
      rfl rfl (Or.inl rfl) (Or.inl rfl) rfl).2.1 rfl rfl,
   (missingKey_error_messages (⟨false, false, false, true⟩ : Config)
      ([] : MapState Nat) (.str "x") "get" "get" "x" "x"
      rfl rfl (Or.inl rfl) (Or.inl rfl) rfl).2.2⟩

/-- C10: for a bridge name absent from the container, under a policy with
both immutability flags false, `exists` (`doHas`) answers true, yet `remove`
(`doDelete`) treats the key as absent — raising `MissingKeyError` when
`errorOnMissingKey` is set and returning `false` otherwise — and the bridge
member survives: the container is unchanged and both `doHas` and `doGet`
still resolve the bridge name afterwards. -/
theorem bridge_has_but_remove_misses {V : Type} (config : Config)
    (m : MapState V) (b : JSKey) (hb : isBridgeKey b = true)
    (him : config.immutableMap = false) (hip : config.immutableProperties = false)
    (habs : mapHas m b = false) :
    doHas m b = true ∧
    (config.throwErrorOnNonexistentProperty = true →
        doDelete config m b = .error (missingMsgStr "delete" (keyToString b))) ∧
    (config.throwErrorOnNonexistentProperty = false →
        doDelete config m b = .ok (false, m)) ∧
    doGet config (afterDelete config m b) b = .ok (.bridge b) ∧
    doHas (afterDelete config m b) b = true := by
  have hdel : mapDelete m b = m := mapDelete_of_not_has m b habs
  have hafter : afterDelete config m b = m := by
    by_cases hth : config.throwErrorOnNonexistentProperty <;>
      simp [afterDelete, doDelete, him, hip, habs, hth, hdel]
  refine ⟨by simp [doHas, hb], ?_, ?_, ?_, ?_⟩
  · intro hth
    simp [doDelete, him, hip, habs, hth, missingMsgStr, errNonexistent, errProp]
  · intro hth
    simp [doDelete, him, hip, habs, hth, hdel]
  · rw [hafter]
    simp [doGet, hb]
  · rw [hafter]
    simp [doHas, hb]

theorem bridge_has_but_remove_misses_witness :
    doHas ([] : MapState Nat) (.str "get") = true ∧
    doDelete (⟨false, false, false, true⟩ : Config) ([] : MapState Nat)
        (.str "get") = .error (missingMsgStr "delete" "get") ∧
    doDelete (⟨false, false, false, false⟩ : Config) ([] : MapState Nat)
        (.str "get") = .ok (false, []) :=
  ⟨(bridge_has_but_remove_misses (⟨false, false, false, false⟩ : Config)
      ([] : MapState Nat) (.str "get") rfl rfl rfl rfl).1,
   (bridge_has_but_remove_misses (⟨false, false, false, true⟩ : Config)
      ([] : MapState Nat) (.str "get") rfl rfl rfl rfl).2.1 rfl,
   (bridge_has_but_remove_misses (⟨false, false, false, false⟩ : Config)
      ([] : MapState Nat) (.str "get") rfl rfl rfl rfl).2.2.1 rfl⟩

end GuMap
